import Mathlib

/-!
Verification of the IVF container codec (rust-av/ivf-rs).

This file gives a shallow embedding of the crate's core logic:

* `src/common.rs`   — the `Codec` enumeration and its `Default` impl;
* `src/demuxer.rs`  — the nom-based parsers `ivf_header`, `ivf_frame`,
  `parse_codec`, `parse_u16/u32/u64`, the `Demuxer` methods
  `read_headers` / `read_event`, and `Des::probe`;
* `src/muxer.rs`    — the `Muxer` methods `configure`, `write_header`,
  `write_packet`.

Byte buffers are `List Nat` (each entry one byte).  Rust machine integers
are `Nat` (unsigned) or `Int` (signed) with explicit `% 2 ^ w` at the cast
sites where the Rust code casts.  The nom result type `IResult` is embedded
as `PResult`: `ok rest value`, `incomplete n` (`Err::Incomplete`,
`Needed::Size n`), `incompleteUnknown` (`Needed::Unknown`), `err s`
(`Err::Error`, carrying the input slice at which the error was raised, as
nom errors do; the error kind is `ErrorKind::Tag` in every error path of
this crate), and `crash`, which models a Rust panic (the helper parsers
index `input[0..n]` without a bounds check and panic on short input).
-/

namespace Ivf

/-- The codec enumeration from `src/common.rs`. -/
inductive Codec where
  | VP8
  | VP9
  | AV1
deriving DecidableEq, Repr

/-- `impl Default for Codec` in `src/common.rs`: the default codec is VP8. -/
def Codec.defaultCodec : Codec := Codec.VP8

/-- The magic bytes `b"DKIF"`. -/
def dkifBytes : List Nat := [68, 75, 73, 70]

/-- The FourCC `b"VP80"`. -/
def vp80Bytes : List Nat := [86, 80, 56, 48]

/-- The FourCC `b"VP90"`. -/
def vp90Bytes : List Nat := [86, 80, 57, 48]

/-- The FourCC `b"AV01"`. -/
def av01Bytes : List Nat := [65, 86, 48, 49]

/-- `av_bitstream::byteread::get_u16l`: little-endian u16 from the first
two bytes of a slice. -/
def getU16l (l : List Nat) : Nat :=
  l.getD 0 0 + 256 * l.getD 1 0

/-- `av_bitstream::byteread::get_u32l`. -/
def getU32l (l : List Nat) : Nat :=
  l.getD 0 0 + 256 * (l.getD 1 0 + 256 * (l.getD 2 0 + 256 * l.getD 3 0))

/-- `av_bitstream::byteread::get_u64l`. -/
def getU64l (l : List Nat) : Nat :=
  l.getD 0 0 + 256 * (l.getD 1 0 + 256 * (l.getD 2 0 + 256 * (l.getD 3 0 +
    256 * (l.getD 4 0 + 256 * (l.getD 5 0 + 256 * (l.getD 6 0 +
    256 * l.getD 7 0))))))

/-- `av_bitstream::bytewrite::put_u16l`: the two little-endian bytes of a
u16 value. -/
def u16le (v : Nat) : List Nat :=
  [v % 256, v / 256 % 256]

/-- `av_bitstream::bytewrite::put_u32l`. -/
def u32le (v : Nat) : List Nat :=
  [v % 256, v / 256 % 256, v / 65536 % 256, v / 16777216 % 256]

/-- `av_bitstream::bytewrite::put_u64l`. -/
def u64le (v : Nat) : List Nat :=
  [v % 256, v / 256 % 256, v / 65536 % 256, v / 16777216 % 256,
   v / 4294967296 % 256, v / 1099511627776 % 256,
   v / 281474976710656 % 256, v / 72057594037927936 % 256]

/-- The Rust cast `x as u32` applied to an `i32` value: the two's
complement bit pattern read back as unsigned. -/
def u32ofI32 (x : Int) : Nat :=
  (x % 4294967296).toNat

/-- The Rust cast `x as i32` applied to an `i64` value: two's complement
truncation to 32 bits. -/
def i32ofI64 (x : Int) : Int :=
  (x + 2147483648) % 4294967296 - 2147483648

/-- Embedding of nom's `IResult` for parsers over byte slices.  `crash`
models a Rust panic (out-of-bounds slice index inside a helper parser). -/
inductive PResult (α : Type) where
  | ok : List Nat → α → PResult α
  | incomplete : Nat → PResult α
  | incompleteUnknown : PResult α
  | err : List Nat → PResult α
  | crash : PResult α
deriving DecidableEq, Repr

/-- Sequencing of embedded parsers, as nom's `tuple` / `and_then` do:
any non-`ok` outcome propagates. -/
def pbind {α β : Type} (r : PResult α) (f : List Nat → α → PResult β) :
    PResult β :=
  match r with
  | .ok rest a => f rest a
  | .incomplete n => .incomplete n
  | .incompleteUnknown => .incompleteUnknown
  | .err s => .err s
  | .crash => .crash

/-- nom's `bytes::streaming::tag("DKIF")`: with at least 4 bytes it
compares the first 4; with fewer it reports `Incomplete` when the
available bytes match a prefix of the tag, else an error positioned at the
whole input. -/
def tagDKIF (input : List Nat) : PResult (List Nat) :=
  if input.length < 4 then
    if input.isPrefixOf dkifBytes then .incomplete (4 - input.length)
    else .err input
  else
    if input.take 4 = dkifBytes then .ok (input.drop 4) dkifBytes
    else .err input

/-- nom's `bytes::streaming::take(n)`: `Incomplete` with the exact missing
count when the input is shorter than `n`, else split at `n`. -/
def takeS (n : Nat) (input : List Nat) : PResult (List Nat) :=
  if input.length < n then .incomplete (n - input.length)
  else .ok (input.drop n) (input.take n)

/-- `parse_u16` from `src/demuxer.rs`: slices `input[0..2]` and
`input[2..]` with no bounds check, so it panics (`crash`) when fewer than
2 bytes are available. -/
def parseU16 (input : List Nat) : PResult Nat :=
  if input.length < 2 then .crash
  else .ok (input.drop 2) (getU16l (input.take 2))

/-- `parse_u32` from `src/demuxer.rs`; panics on fewer than 4 bytes. -/
def parseU32 (input : List Nat) : PResult Nat :=
  if input.length < 4 then .crash
  else .ok (input.drop 4) (getU32l (input.take 4))

/-- `parse_u64` from `src/demuxer.rs`; panics on fewer than 8 bytes. -/
def parseU64 (input : List Nat) : PResult Nat :=
  if input.length < 8 then .crash
  else .ok (input.drop 8) (getU64l (input.take 8))

/-- `parse_codec` from `src/demuxer.rs`: matches `&input[0..4]` against
the three FourCC tags; an unknown tag is
`Err::Error(error_position!(&input[0..4], ErrorKind::Tag))`, and the
slice itself panics when fewer than 4 bytes are available. -/
def parseCodec (input : List Nat) : PResult Codec :=
  if input.length < 4 then .crash
  else
    if input.take 4 = vp80Bytes then .ok (input.drop 4) Codec.VP8
    else if input.take 4 = vp90Bytes then .ok (input.drop 4) Codec.VP9
    else if input.take 4 = av01Bytes then .ok (input.drop 4) Codec.AV1
    else .err (input.take 4)

/-- The parsed header struct `IvfHeader` from `src/demuxer.rs` (the
declared header-length field is read but discarded by the parser). -/
structure IvfHeader where
  version : Nat
  width : Nat
  height : Nat
  rate : Nat
  scale : Nat
  codec : Codec
  nframe : Nat
deriving DecidableEq, Repr

/-- The parsed frame struct `IvfFrame` from `src/demuxer.rs`. -/
structure IvfFrame where
  size : Nat
  pos : Nat
  data : List Nat
deriving DecidableEq, Repr

/-- `ivf_header` from `src/demuxer.rs`: the nom `tuple` of
tag, version, length (discarded), codec, width, height, rate, scale,
frame count, and 4 reserved bytes — 32 bytes in total. -/
def ivfHeader (input : List Nat) : PResult IvfHeader :=
  pbind (tagDKIF input) fun i1 _ =>
  pbind (parseU16 i1) fun i2 version =>
  pbind (parseU16 i2) fun i3 _length =>
  pbind (parseCodec i3) fun i4 codec =>
  pbind (parseU16 i4) fun i5 width =>
  pbind (parseU16 i5) fun i6 height =>
  pbind (parseU32 i6) fun i7 rate =>
  pbind (parseU32 i7) fun i8 scale =>
  pbind (parseU32 i8) fun i9 nframe =>
  pbind (takeS 4 i9) fun i10 _ =>
  .ok i10 { version := version, width := width, height := height,
            rate := rate, scale := scale, codec := codec, nframe := nframe }

/-- `ivf_frame` from `src/demuxer.rs`: u32 size, u64 position, then
`take(size)` bytes of payload (copied out). -/
def ivfFrame (input : List Nat) : PResult IvfFrame :=
  pbind (parseU32 input) fun i1 size =>
  pbind (parseU64 i1) fun i2 pos =>
  pbind (takeS size i2) fun i3 data =>
  .ok i3 { size := size, pos := pos, data := data }

/-- The fields of `av_data::packet::Packet` that `read_event` populates
(`t: TimeInfo::default()` carries no information relevant here). -/
structure Packet where
  data : List Nat
  pos : Option Nat
  streamIndex : Nat
  isKey : Bool
  isCorrupted : Bool
deriving DecidableEq, Repr

/-- The `av_format::demuxer::Event` variants that `IvfDemuxer` produces. -/
inductive Event where
  | newPacket : Packet → Event
  | eof : Event
deriving DecidableEq, Repr

/-- `av_format::error::Error` variants reachable from this crate. -/
inductive AvError where
  | invalidData : AvError
  | moreDataNeeded : Nat → AvError
deriving DecidableEq, Repr

/-- The demuxer state from `src/demuxer.rs`. -/
structure IvfDemuxer where
  header : Option IvfHeader
  queue : List Event
deriving DecidableEq, Repr

/-- Outcome of `IvfDemuxer::read_event`: `ok` carries the updated state,
the `SeekFrom::Current` advance (the consumed byte count) and the event;
`err` is the Rust `Err(_)` return; `crash` models a panic inside the
parser. -/
inductive RResult where
  | ok : IvfDemuxer → Nat → Event → RResult
  | err : AvError → RResult
  | crash : RResult
deriving DecidableEq, Repr

/-- Outcome of `IvfDemuxer::read_headers`: updated state plus the
`SeekFrom::Current` advance (the crate ignores the stream it registers in
`GlobalInfo` for the purpose of these claims; the seek value is
`buf.data().offset(input)`, i.e. the consumed byte count). -/
inductive HResult where
  | ok : IvfDemuxer → Nat → HResult
  | err : AvError → HResult
  | crash : HResult
deriving DecidableEq, Repr

/-- `IvfDemuxer::read_event` from `src/demuxer.rs`: drain the queue first;
an empty buffer is `Event::Eof`; otherwise run `ivf_frame`, mapping
`Incomplete(Size n)` to `Error::MoreDataNeeded(buf.len() + n)`,
`Incomplete(Unknown)` to `Error::MoreDataNeeded(1024)`, and any other
error to `Error::InvalidData`. -/
def readEvent (st : IvfDemuxer) (buf : List Nat) : RResult :=
  match st.queue with
  | e :: rest => .ok { st with queue := rest } 0 e
  | [] =>
    if buf.isEmpty then .ok st 0 .eof
    else
      match ivfFrame buf with
      | .ok rest frame =>
          .ok st (buf.length - rest.length)
            (.newPacket { data := frame.data, pos := some frame.pos,
                          streamIndex := 0, isKey := false,
                          isCorrupted := false })
      | .incomplete n => .err (.moreDataNeeded (buf.length + n))
      | .incompleteUnknown => .err (.moreDataNeeded 1024)
      | .err _ => .err .invalidData
      | .crash => .crash

/-- `IvfDemuxer::read_headers` from `src/demuxer.rs`: run `ivf_header`;
on success store the header and report `buf.data().offset(input)` (the
consumed byte count) as the seek advance; any parse error (including
`Incomplete`) becomes `Error::InvalidData`. -/
def readHeaders (st : IvfDemuxer) (buf : List Nat) : HResult :=
  match ivfHeader buf with
  | .ok rest hdr => .ok { st with header := some hdr } (buf.length - rest.length)
  | .incomplete _ => .err .invalidData
  | .incompleteUnknown => .err .invalidData
  | .err _ => .err .invalidData
  | .crash => .crash

/-- `Des::probe` from `src/demuxer.rs`: `ivf_header(&data[..=32])` — the
slice `data[0..33]` panics (`none`) when fewer than 33 bytes are given;
otherwise the result is 32 on a successful parse and 0 on any failure. -/
def probe (data : List Nat) : Option Nat :=
  if data.length < 33 then none
  else
    match ivfHeader (data.take 33) with
    | .ok _ _ => some 32
    | .crash => none
    | _ => some 0

/-- `av_data::params::MediaKind`, restricted to the fields `configure`
reads (`VideoInfo.format` is never inspected). -/
inductive MediaKind where
  | video : Nat → Nat → MediaKind
  | audio : MediaKind
deriving DecidableEq, Repr

/-- The fields of `av_data::params::CodecParams` that `configure` reads. -/
structure CodecParams where
  codecId : Option String
  kind : Option MediaKind
deriving DecidableEq, Repr

/-- The fields of `av_format::stream::Stream` that `configure` reads. -/
structure AvStream where
  duration : Option Nat
  params : CodecParams
deriving DecidableEq, Repr

/-- The fields of `av_format::common::GlobalInfo` that `configure` reads;
`timebase` is a `Rational64` stored as its (numerator, denominator)
components. -/
structure GlobalInfo where
  duration : Option Nat
  timebase : Option (Int × Int)
  streams : List AvStream
deriving DecidableEq, Repr

/-- The muxer state from `src/muxer.rs`; `frame_rate: Rational32` is
stored as its two `i32` components `frameRateNum` / `frameRateDen`. -/
structure IvfMuxer where
  version : Nat
  width : Nat
  height : Nat
  frameRateNum : Int
  frameRateDen : Int
  scale : Nat
  codec : Codec
  duration : Nat
  info : Option GlobalInfo
deriving DecidableEq, Repr

/-- `num_rational::Rational32::new(n, d)`: reduce by the gcd and
normalise the denominator to be positive; a zero denominator panics
(`none`). -/
def rat32New (n d : Int) : Option (Int × Int) :=
  if d = 0 then none
  else if n = 0 then some (0, 1)
  else
    if d / (Int.gcd n d : Int) < 0 then
      some (-(n / (Int.gcd n d : Int)), -(d / (Int.gcd n d : Int)))
    else some (n / (Int.gcd n d : Int), d / (Int.gcd n d : Int))

/-- `IvfMuxer::configure` from `src/muxer.rs`.  With no global info or no
streams it changes nothing and returns `Ok(())`.  Otherwise it sets
duration (u32 cast of the first stream's duration), version 0, the video
dimensions (u16 casts) when the stream is video, the frame rate
`Rational32::new(tb.denom as i32, tb.numer as i32)` (default `30/1`),
scale 1, and the codec from `codec_id` with `Codec::default()` (VP8) as
the fallback.  `none` models the `Rational32::new` panic on a zero
denominator. -/
def configure (m : IvfMuxer) : Option IvfMuxer :=
  match m.info with
  | none => some m
  | some info =>
    match info.streams with
    | [] => some m
    | s0 :: _ =>
      let duration := (s0.duration.getD 0) % 4294967296
      let width :=
        match s0.params.kind with
        | some (.video w _) => w % 65536
        | _ => m.width
      let height :=
        match s0.params.kind with
        | some (.video _ h) => h % 65536
        | _ => m.height
      let frameRate :=
        match info.timebase with
        | some tb => rat32New (i32ofI64 tb.2) (i32ofI64 tb.1)
        | none => some (30, 1)
      match frameRate with
      | none => none
      | some fr =>
        let codec :=
          match s0.params.codecId with
          | some s =>
            if s = "av1" then Codec.AV1
            else if s = "vp8" then Codec.VP8
            else if s = "vp9" then Codec.VP9
            else Codec.defaultCodec
          | none => Codec.defaultCodec
        some { m with duration := duration, version := 0, width := width,
                      height := height, frameRateNum := fr.1,
                      frameRateDen := fr.2, scale := 1, codec := codec }

/-- The FourCC written for each codec by `IvfMuxer::write_header`. -/
def codecTag : Codec → List Nat
  | .VP8 => vp80Bytes
  | .VP9 => vp90Bytes
  | .AV1 => av01Bytes

/-- `IvfMuxer::write_header` from `src/muxer.rs`: magic, version (u16 LE),
literal header length 32 (u16 LE), codec FourCC, width, height (u16 LE),
frame-rate numerator and denominator cast `as u32` (u32 LE), duration
(u32 LE), and 4 zero reserved bytes — 32 bytes in total.  Note the
muxer's own `scale` field is not written; the scale slot holds the
frame-rate denominator. -/
def writeHeader (m : IvfMuxer) : List Nat :=
  dkifBytes ++ u16le m.version ++ u16le 32 ++ codecTag m.codec ++
    u16le m.width ++ u16le m.height ++ u32le (u32ofI32 m.frameRateNum) ++
    u32le (u32ofI32 m.frameRateDen) ++ u32le m.duration ++ u32le 0

/-- `IvfMuxer::write_packet` from `src/muxer.rs`: `pkt.data.len() as u32`
(LE), `pkt.pos.unwrap_or_default() as u64` (LE), then the payload
verbatim. -/
def writePacket (data : List Nat) (pos : Option Nat) : List Nat :=
  u32le (data.length % 4294967296) ++
    u64le (pos.getD 0 % 18446744073709551616) ++ data

/-! ### Helper lemmas -/

theorem pbind_ok {α β : Type} (rest : List Nat) (a : α)
    (f : List Nat → α → PResult β) : pbind (.ok rest a) f = f rest a := rfl

theorem tagDKIF_append (l : List Nat) :
    tagDKIF (dkifBytes ++ l) = .ok l dkifBytes := by
  simp [tagDKIF, dkifBytes]

theorem parseU16_append (v : Nat) (l : List Nat) :
    parseU16 (u16le v ++ l) = .ok l (v % 65536) := by
  have h : v % 256 + 256 * (v / 256 % 256) = v % 65536 := by omega
  simp [parseU16, u16le, getU16l, h]

theorem parseU32_append (v : Nat) (l : List Nat) :
    parseU32 (u32le v ++ l) = .ok l (v % 4294967296) := by
  have h : v % 256 + 256 * (v / 256 % 256 + 256 * (v / 65536 % 256 +
      256 * (v / 16777216 % 256))) = v % 4294967296 := by omega
  simp [parseU32, u32le, getU32l, h]

theorem parseU64_append (v : Nat) (l : List Nat) :
    parseU64 (u64le v ++ l) = .ok l (v % 18446744073709551616) := by
  have h : v % 256 + 256 * (v / 256 % 256 + 256 * (v / 65536 % 256 +
      256 * (v / 16777216 % 256 + 256 * (v / 4294967296 % 256 +
      256 * (v / 1099511627776 % 256 + 256 * (v / 281474976710656 % 256 +
      256 * (v / 72057594037927936 % 256))))))) =
      v % 18446744073709551616 := by omega
  simp [parseU64, u64le, getU64l, h]

theorem parseCodec_append (c : Codec) (l : List Nat) :
    parseCodec (codecTag c ++ l) = .ok l c := by
  cases c <;> simp [parseCodec, codecTag, vp80Bytes, vp90Bytes, av01Bytes]

theorem takeS_append (a l : List Nat) :
    takeS a.length (a ++ l) = .ok l a := by
  simp [takeS, List.take_append, List.drop_append]

theorem takeS_exact (l : List Nat) : takeS l.length l = .ok [] l := by
  simp [takeS]

/-! ### Claim theorems -/

/-- Claim C1: Header round-trip.  For every valid muxer header state
(u16 fields in range, frame-rate components nonnegative `i32` values,
duration a u32), `IvfMuxer::write_header` emits exactly 32 bytes whose
last 4 (reserved) bytes are zero, and `ivf_header` parses them back,
consuming all 32 bytes, into an `IvfHeader` whose version, codec, width,
height, rate (the frame-rate numerator), scale (the frame-rate
denominator) and frame count (the muxer's duration) equal the serialized
fields. -/
theorem header_roundtrip (m : IvfMuxer)
    (hv : m.version < 65536) (hw : m.width < 65536) (hh : m.height < 65536)
    (hn0 : 0 ≤ m.frameRateNum) (hn : m.frameRateNum < 2147483648)
    (hd0 : 0 ≤ m.frameRateDen) (hd : m.frameRateDen < 2147483648)
    (hdur : m.duration < 4294967296) :
    (writeHeader m).length = 32 ∧
    (writeHeader m).drop 28 = [0, 0, 0, 0] ∧
    ivfHeader (writeHeader m) =
      .ok [] { version := m.version, width := m.width, height := m.height,
               rate := m.frameRateNum.toNat, scale := m.frameRateDen.toNat,
               codec := m.codec, nframe := m.duration } := by
  have hct : (codecTag m.codec).length = 4 := by cases m.codec <;> rfl
  have hnum : u32ofI32 m.frameRateNum = m.frameRateNum.toNat := by
    unfold u32ofI32; omega
  have hden : u32ofI32 m.frameRateDen = m.frameRateDen.toNat := by
    unfold u32ofI32; omega
  have hv2 : m.version % 65536 = m.version := Nat.mod_eq_of_lt hv
  have hw2 : m.width % 65536 = m.width := Nat.mod_eq_of_lt hw
  have hh2 : m.height % 65536 = m.height := Nat.mod_eq_of_lt hh
  have hn2 : m.frameRateNum.toNat % 4294967296 = m.frameRateNum.toNat := by
    omega
  have hd2 : m.frameRateDen.toNat % 4294967296 = m.frameRateDen.toNat := by
    omega
  have hdur2 : m.duration % 4294967296 = m.duration := Nat.mod_eq_of_lt hdur
  have ht : takeS 4 (u32le 0) = .ok [] [0, 0, 0, 0] := rfl
  refine ⟨?_, ?_, ?_⟩
  · simp [writeHeader, u16le, u32le, dkifBytes, hct]
  · have hP : (dkifBytes ++ u16le m.version ++ u16le 32 ++ codecTag m.codec ++
        u16le m.width ++ u16le m.height ++ u32le (u32ofI32 m.frameRateNum) ++
        u32le (u32ofI32 m.frameRateDen) ++ u32le m.duration).length = 28 := by
      simp [u16le, u32le, dkifBytes, hct]
    calc (writeHeader m).drop 28
        = ((dkifBytes ++ u16le m.version ++ u16le 32 ++ codecTag m.codec ++
            u16le m.width ++ u16le m.height ++
            u32le (u32ofI32 m.frameRateNum) ++
            u32le (u32ofI32 m.frameRateDen) ++
            u32le m.duration) ++ u32le 0).drop 28 := rfl
      _ = [0, 0, 0, 0] := by rw [← hP, List.drop_left]; rfl
  · simp only [writeHeader, ivfHeader, List.append_assoc, tagDKIF_append,
      pbind_ok, parseU16_append, parseCodec_append, parseU32_append,
      hnum, hden, hv2, hw2, hh2, hn2, hd2, hdur2, ht]

/-- Claim C2: Frame round-trip.  For every payload of u32-representable
length and every u64 position, `IvfMuxer::write_packet` emits exactly
`12 + size` bytes (u32 LE size, u64 LE position, payload verbatim), and
`ivf_frame` parses them back into the same size, position, and payload,
consuming the whole record. -/
theorem frame_roundtrip (data : List Nat) (p : Nat)
    (hlen : data.length < 4294967296) (hp : p < 18446744073709551616) :
    (writePacket data (some p)).length = 12 + data.length ∧
    ivfFrame (writePacket data (some p)) =
      .ok [] { size := data.length, pos := p, data := data } := by
  have h1 : data.length % 4294967296 = data.length := Nat.mod_eq_of_lt hlen
  have h2 : p % 18446744073709551616 = p := Nat.mod_eq_of_lt hp
  constructor
  · simp [writePacket, u32le, u64le]; omega
  · simp only [writePacket, Option.getD_some, ivfFrame, List.append_assoc,
      parseU32_append, parseU64_append, pbind_ok, h1, h2, takeS_exact]

theorem pbind_err {α β : Type} (s : List Nat) (f : List Nat → α → PResult β) :
    pbind (.err s) f = .err s := rfl

/-- The 32-byte valid header test vector from the specification:
width 16, height 16, rate 30, scale 1, frame count 2, codec VP8. -/
def sampleHeader : List Nat :=
  [68, 75, 73, 70, 0, 0, 32, 0, 86, 80, 56, 48, 16, 0, 16, 0,
   30, 0, 0, 0, 1, 0, 0, 0, 2, 0, 0, 0, 0, 0, 0, 0]

/-- The 16-byte frame record test vector from the specification:
size 4, position 0, payload DE AD BE EF. -/
def sampleFrame : List Nat :=
  [4, 0, 0, 0, 0, 0, 0, 0, 0, 0, 0, 0, 222, 173, 190, 239]

/-- Claim C3 (code bug): the full 16-byte frame record parses, but
feeding only its first 10 bytes makes `parse_u64` slice `input[0..8]`
out of bounds — a panic (`crash`), not `NeedMoreBytes(6)` — both at the
parser and through `read_event`; and with the full 12-byte prefix but a
missing payload, `read_event` reports `MoreDataNeeded(16)` (the total
record length, not the 4-byte shortfall). -/
theorem frame_partial_crash :
    ivfFrame sampleFrame = .ok [] { size := 4, pos := 0,
                                    data := [222, 173, 190, 239] } ∧
    ivfFrame (sampleFrame.take 10) = .crash ∧
    readEvent ⟨none, []⟩ (sampleFrame.take 10) = .crash ∧
    readEvent ⟨none, []⟩ (sampleFrame.take 12) =
      .err (.moreDataNeeded 16) := by
  decide

/-- Claim C4 (code bug): the 32-byte sample header parses, and prefixes
shorter than 4 bytes or of length 28..31 yield `Incomplete` with the
exact missing count, but prefixes of length 4..27 crash: the helper
parsers slice `input[0..n]` out of bounds and panic instead of returning
`NeedMoreBytes`. -/
theorem header_partial_crash :
    ivfHeader sampleHeader =
      .ok [] { version := 0, width := 16, height := 16, rate := 30,
               scale := 1, codec := .VP8, nframe := 2 } ∧
    ivfHeader (sampleHeader.take 4) = .crash ∧
    ivfHeader (sampleHeader.take 10) = .crash ∧
    ivfHeader (sampleHeader.take 27) = .crash ∧
    ivfHeader (sampleHeader.take 2) = .incomplete 2 ∧
    ivfHeader (sampleHeader.take 30) = .incomplete 2 := by
  decide

/-- A 4-byte FourCC recognised by `parse_codec`. -/
abbrev knownTag (t : List Nat) : Prop :=
  t = vp80Bytes ∨ t = vp90Bytes ∨ t = av01Bytes

/-- The input slice at which `ivf_header` raises its error: for a bad
magic, nom's `tag` positions the error at the whole input; for an unknown
codec FourCC, `parse_codec` positions it at the 4 codec bytes. -/
def malformedSlice (input : List Nat) : List Nat :=
  if input.take 4 = dkifBytes then (input.drop 8).take 4 else input

/-- Claim C5: corruption detection.  On any buffer of at least 32 bytes,
a first-4-byte mismatch with "DKIF", or a codec FourCC outside the three
recognised tags, makes `ivf_header` fail with a nom `Tag` error; the
error's position distinguishes the two structural checks (it is the whole
input exactly when the magic was bad, and the 4 codec bytes otherwise). -/
theorem header_malformed (input : List Nat) (h32 : 32 ≤ input.length)
    (hbad : input.take 4 ≠ dkifBytes ∨ ¬ knownTag ((input.drop 8).take 4)) :
    ivfHeader input = .err (malformedSlice input) ∧
    (malformedSlice input = input ↔ input.take 4 ≠ dkifBytes) := by
  by_cases hm : input.take 4 = dkifBytes
  · have hcodec : ¬ knownTag ((input.drop 8).take 4) := by
      rcases hbad with h | h
      · exact absurd hm h
      · exact h
    have hc1 : (input.drop 8).take 4 ≠ vp80Bytes := fun h => hcodec (Or.inl h)
    have hc2 : (input.drop 8).take 4 ≠ vp90Bytes :=
      fun h => hcodec (Or.inr (Or.inl h))
    have hc3 : (input.drop 8).take 4 ≠ av01Bytes :=
      fun h => hcodec (Or.inr (Or.inr h))
    have e1 : tagDKIF input = .ok (input.drop 4) dkifBytes := by
      unfold tagDKIF
      rw [if_neg (by omega), if_pos hm]
    have e2 : parseU16 (input.drop 4) =
        .ok (input.drop 6) (getU16l ((input.drop 4).take 2)) := by
      unfold parseU16
      rw [if_neg (by rw [List.length_drop]; omega)]
      simp [List.drop_drop]
    have e3 : parseU16 (input.drop 6) =
        .ok (input.drop 8) (getU16l ((input.drop 6).take 2)) := by
      unfold parseU16
      rw [if_neg (by rw [List.length_drop]; omega)]
      simp [List.drop_drop]
    have e4 : parseCodec (input.drop 8) = .err ((input.drop 8).take 4) := by
      unfold parseCodec
      rw [if_neg (by rw [List.length_drop]; omega), if_neg hc1, if_neg hc2,
        if_neg hc3]
    have hms : malformedSlice input = (input.drop 8).take 4 := if_pos hm
    refine ⟨?_, ?_⟩
    · simp only [ivfHeader, e1, pbind_ok, e2, e3, e4, pbind_err, hms]
    · rw [hms]
      have hlen : ((input.drop 8).take 4).length = 4 := by
        rw [List.length_take, List.length_drop]; omega
      constructor
      · intro heq
        have := congrArg List.length heq
        rw [hlen] at this
        omega
      · intro hcontra
        exact absurd hm hcontra
  · have e1 : tagDKIF input = .err input := by
      unfold tagDKIF
      rw [if_neg (by omega), if_neg hm]
    have hms : malformedSlice input = input := if_neg hm
    refine ⟨?_, ?_⟩
    · simp only [ivfHeader, e1, pbind_err, hms]
    · simp [hms, hm]

/-- Claim C6: FourCC bijection.  The three recognised tags decode to the
three codecs, the muxer encodes each codec back to the same tag (so
encode ∘ decode is the identity on the recognised tags), and every other
4-byte tag is a hard parse error carrying the offending bytes, never a
silently coerced codec value. -/
theorem codec_bijection :
    parseCodec vp80Bytes = .ok [] .VP8 ∧
    parseCodec vp90Bytes = .ok [] .VP9 ∧
    parseCodec av01Bytes = .ok [] .AV1 ∧
    codecTag .VP8 = vp80Bytes ∧
    codecTag .VP9 = vp90Bytes ∧
    codecTag .AV1 = av01Bytes ∧
    ∀ t : List Nat, t.length = 4 → t ≠ vp80Bytes → t ≠ vp90Bytes →
      t ≠ av01Bytes → parseCodec t = .err t := by
  refine ⟨by decide, by decide, by decide, rfl, rfl, rfl, ?_⟩
  intro t h4 h1 h2 h3
  have ht : t.take 4 = t := List.take_of_length_le (by omega)
  unfold parseCodec
  rw [if_neg (by omega), ht, if_neg h1, if_neg h2, if_neg h3]

/-- Claim C7: end-of-stream distinction.  With an empty pending queue and
an empty buffer, `read_event` returns `Ok((SeekFrom::Current(0),
Event::Eof))` — a success value distinct from `Err(MoreDataNeeded(_))`
and from `Err(InvalidData)`. -/
theorem read_event_empty_eof (st : IvfDemuxer) (h : st.queue = []) :
    readEvent st [] = .ok st 0 .eof ∧
    (∀ n, (RResult.ok st 0 .eof) ≠ .err (.moreDataNeeded n)) ∧
    (RResult.ok st 0 .eof) ≠ .err .invalidData := by
  obtain ⟨hdr, q⟩ := st
  simp only at h
  subst h
  exact ⟨rfl, fun n => by simp, by simp⟩

/-- Claim C8 (code bug): `probe` slices `data[..=32]` unconditionally, so
any input shorter than 33 bytes — including a valid 32-byte header —
panics (`none`) instead of returning confidence 0; with at least 33 bytes
it does return 32 on a valid header prefix and 0 otherwise. -/
theorem probe_short_crash :
    probe [] = none ∧
    probe sampleHeader = none ∧
    probe (sampleHeader ++ [0]) = some 32 ∧
    probe (255 :: (sampleHeader.drop 1 ++ [0])) = some 0 := by
  decide

theorem pbind_ok_inv {α β : Type} {r : PResult α}
    {f : List Nat → α → PResult β} {rest : List Nat} {b : β}
    (h : pbind r f = .ok rest b) :
    ∃ i a, r = .ok i a ∧ f i a = .ok rest b := by
  cases r with
  | ok i a => exact ⟨i, a, rfl, h⟩
  | incomplete n => simp [pbind] at h
  | incompleteUnknown => simp [pbind] at h
  | err s => simp [pbind] at h
  | crash => simp [pbind] at h

theorem tagDKIF_ok_inv {i r a : List Nat} (h : tagDKIF i = .ok r a) :
    r = i.drop 4 ∧ 4 ≤ i.length := by
  unfold tagDKIF at h
  split at h
  · split at h <;> simp at h
  · next hge =>
    split at h
    · simp only [PResult.ok.injEq] at h
      exact ⟨h.1.symm, by omega⟩
    · simp at h

theorem parseU16_ok_inv {i r : List Nat} {v : Nat}
    (h : parseU16 i = .ok r v) : r = i.drop 2 ∧ 2 ≤ i.length := by
  unfold parseU16 at h
  split at h
  · simp at h
  · next hge =>
    simp only [PResult.ok.injEq] at h
    exact ⟨h.1.symm, by omega⟩

theorem parseU32_ok_inv {i r : List Nat} {v : Nat}
    (h : parseU32 i = .ok r v) : r = i.drop 4 ∧ 4 ≤ i.length := by
  unfold parseU32 at h
  split at h
  · simp at h
  · next hge =>
    simp only [PResult.ok.injEq] at h
    exact ⟨h.1.symm, by omega⟩

theorem parseCodec_ok_inv {i r : List Nat} {c : Codec}
    (h : parseCodec i = .ok r c) : r = i.drop 4 ∧ 4 ≤ i.length := by
  unfold parseCodec at h
  split at h
  · simp at h
  · next hge =>
    split at h
    · simp only [PResult.ok.injEq] at h
      exact ⟨h.1.symm, by omega⟩
    · split at h
      · simp only [PResult.ok.injEq] at h
        exact ⟨h.1.symm, by omega⟩
      · split at h
        · simp only [PResult.ok.injEq] at h
          exact ⟨h.1.symm, by omega⟩
        · simp at h

theorem takeS_ok_inv {n : Nat} {i r a : List Nat}
    (h : takeS n i = .ok r a) : r = i.drop n ∧ n ≤ i.length := by
  unfold takeS at h
  split at h
  · simp at h
  · next hge =>
    simp only [PResult.ok.injEq] at h
    exact ⟨h.1.symm, by omega⟩

/-- Any successful `ivf_header` parse consumes exactly the first 32 bytes
of the input, whatever the declared header-length field said. -/
theorem ivfHeader_ok_inv {input rest : List Nat} {hdr : IvfHeader}
    (h : ivfHeader input = .ok rest hdr) :
    rest = input.drop 32 ∧ 32 ≤ input.length := by
  unfold ivfHeader at h
  obtain ⟨i1, a1, e1, h⟩ := pbind_ok_inv h
  obtain ⟨i2, a2, e2, h⟩ := pbind_ok_inv h
  obtain ⟨i3, a3, e3, h⟩ := pbind_ok_inv h
  obtain ⟨i4, a4, e4, h⟩ := pbind_ok_inv h
  obtain ⟨i5, a5, e5, h⟩ := pbind_ok_inv h
  obtain ⟨i6, a6, e6, h⟩ := pbind_ok_inv h
  obtain ⟨i7, a7, e7, h⟩ := pbind_ok_inv h
  obtain ⟨i8, a8, e8, h⟩ := pbind_ok_inv h
  obtain ⟨i9, a9, e9, h⟩ := pbind_ok_inv h
  obtain ⟨i10, a10, e10, h⟩ := pbind_ok_inv h
  obtain ⟨t1, l1⟩ := tagDKIF_ok_inv e1
  obtain ⟨t2, l2⟩ := parseU16_ok_inv e2
  obtain ⟨t3, l3⟩ := parseU16_ok_inv e3
  obtain ⟨t4, l4⟩ := parseCodec_ok_inv e4
  obtain ⟨t5, l5⟩ := parseU16_ok_inv e5
  obtain ⟨t6, l6⟩ := parseU16_ok_inv e6
  obtain ⟨t7, l7⟩ := parseU32_ok_inv e7
  obtain ⟨t8, l8⟩ := parseU32_ok_inv e8
  obtain ⟨t9, l9⟩ := parseU32_ok_inv e9
  obtain ⟨t10, l10⟩ := takeS_ok_inv e10
  subst t1 t2 t3 t4 t5 t6 t7 t8 t9 t10
  simp only [List.length_drop] at l2 l3 l4 l5 l6 l7 l8 l9 l10
  simp only [PResult.ok.injEq] at h
  constructor
  · rw [← h.1]
    simp [List.drop_drop]
  · omega

/-- Claim C9 amended: on a successful header parse, the seek advance
reported by `read_headers` is always the fixed 32 bytes; the declared
header-length field at bytes 6..8 is parsed but ignored. -/
theorem header_consumed_fixed_32 (st st2 : IvfDemuxer) (buf : List Nat)
    (k : Nat) (h : readHeaders st buf = .ok st2 k) : k = 32 := by
  unfold readHeaders at h
  split at h
  · next rest hdr e =>
    obtain ⟨hrest, h32⟩ := ivfHeader_ok_inv e
    simp only [HResult.ok.injEq] at h
    rw [← h.2, hrest, List.length_drop]
    omega
  · simp at h
  · simp at h
  · simp at h
  · simp at h

/-- A valid header whose declared header-length field is 64, followed by
one trailing byte (33 bytes in all). -/
def extHeader : List Nat :=
  [68, 75, 73, 70, 0, 0, 64, 0, 86, 80, 56, 48, 16, 0, 16, 0,
   30, 0, 0, 0, 1, 0, 0, 0, 2, 0, 0, 0, 0, 0, 0, 0, 170]

/-- Claim C9 counterexample: on a header declaring length 64, the parse
succeeds but `read_headers` reports 32 consumed bytes, not the declared
64 — the declared header-length field does not drive the cursor. -/
theorem header_offset_counterexample :
    getU16l (extHeader.drop 6) = 64 ∧
    readHeaders ⟨none, []⟩ extHeader =
      .ok ⟨some { version := 0, width := 16, height := 16, rate := 30,
                  scale := 1, codec := .VP8, nframe := 2 }, []⟩ 32 ∧
    (32 : Nat) ≠ 64 := by
  decide

theorem rat32New_of_den (n d : Int) (hd : d ≠ 0) :
    ∃ fr, rat32New n d = some fr := by
  unfold rat32New
  rw [if_neg hd]
  split_ifs <;> exact ⟨_, rfl⟩

/-- reduces the stream/codec-independent part of `configure` once the
info, stream list, timebase outcome and codec id are fixed. -/
theorem configure_reduce (m : IvfMuxer) (info : GlobalInfo)
    (s0 : AvStream) (tl : List AvStream) (fr : Int × Int)
    (hinfo : m.info = some info) (hstreams : info.streams = s0 :: tl)
    (hfr : (match info.timebase with
            | some tb => rat32New (i32ofI64 tb.2) (i32ofI64 tb.1)
            | none => some (30, 1)) = some fr) :
    configure m = some { m with
      duration := (s0.duration.getD 0) % 4294967296,
      version := 0,
      width := match s0.params.kind with
               | some (.video w _) => w % 65536
               | _ => m.width,
      height := match s0.params.kind with
                | some (.video _ h) => h % 65536
                | _ => m.height,
      frameRateNum := fr.1, frameRateDen := fr.2, scale := 1,
      codec := match s0.params.codecId with
               | some s =>
                 if s = "av1" then Codec.AV1
                 else if s = "vp8" then Codec.VP8
                 else if s = "vp9" then Codec.VP9
                 else Codec.defaultCodec
               | none => Codec.defaultCodec } := by
  cases etb : info.timebase with
  | none =>
    rw [etb] at hfr
    simp only [Option.some.injEq] at hfr
    simp only [configure, hinfo, hstreams, etb, ← hfr]
  | some tb =>
    rw [etb] at hfr
    have hfr2 : rat32New (i32ofI64 tb.2) (i32ofI64 tb.1) = some fr := hfr
    simp only [configure, hinfo, hstreams, etb, hfr2]

/-- Claim C10: silent codec fallback in `IvfMuxer::configure`.  With
global info holding at least one stream whose `codec_id` is absent or is
any identifier other than "av1" / "vp8" / "vp9", `configure` succeeds and
silently sets the codec to `Codec::default()`, which is VP8.  (The
timebase hypothesis excludes the unrelated `Rational32::new` panic on a
zero numerator.) -/
theorem configure_codec_fallback (m : IvfMuxer) (info : GlobalInfo)
    (s0 : AvStream) (tl : List AvStream)
    (hinfo : m.info = some info) (hstreams : info.streams = s0 :: tl)
    (hc1 : s0.params.codecId ≠ some "av1")
    (hc2 : s0.params.codecId ≠ some "vp8")
    (hc3 : s0.params.codecId ≠ some "vp9")
    (htb : ∀ tb : Int × Int, info.timebase = some tb → i32ofI64 tb.1 ≠ 0) :
    ∃ m2, configure m = some m2 ∧ m2.codec = Codec.defaultCodec ∧
      Codec.defaultCodec = Codec.VP8 := by
  have hfr : ∃ fr, (match info.timebase with
      | some tb => rat32New (i32ofI64 tb.2) (i32ofI64 tb.1)
      | none => some (30, 1)) = some fr := by
    cases e : info.timebase with
    | none => exact ⟨(30, 1), rfl⟩
    | some tb => exact rat32New_of_den _ _ (htb tb e)
  obtain ⟨fr, hfr⟩ := hfr
  refine ⟨_, configure_reduce m info s0 tl fr hinfo hstreams hfr, ?_, rfl⟩
  cases ec : s0.params.codecId with
  | none => simp only [ec]
  | some s =>
    rw [ec] at hc1 hc2 hc3
    simp only [ne_eq, Option.some.injEq] at hc1 hc2 hc3
    simp only [ec, if_neg hc1, if_neg hc2, if_neg hc3]

/-! ### Witnesses -/

/-- A concrete muxer state for the header round-trip witness. -/
def muxHW : IvfMuxer :=
  { version := 1, width := 640, height := 480, frameRateNum := 30,
    frameRateDen := 1, scale := 7, codec := .VP9, duration := 2,
    info := none }

/-- Witness for claim C1 at a concrete header. -/
theorem header_roundtrip_witness :
    (writeHeader muxHW).length = 32 ∧
    (writeHeader muxHW).drop 28 = [0, 0, 0, 0] ∧
    ivfHeader (writeHeader muxHW) =
      .ok [] { version := 1, width := 640, height := 480, rate := 30,
               scale := 1, codec := .VP9, nframe := 2 } :=
  header_roundtrip muxHW (by decide) (by decide) (by decide) (by decide)
    (by decide) (by decide) (by decide) (by decide)

/-- Witness for claim C2 at the specification's own frame vector. -/
theorem frame_roundtrip_witness :
    (writePacket [222, 173, 190, 239] (some 0)).length = 16 ∧
    ivfFrame (writePacket [222, 173, 190, 239] (some 0)) =
      .ok [] { size := 4, pos := 0, data := [222, 173, 190, 239] } :=
  frame_roundtrip [222, 173, 190, 239] 0 (by decide) (by decide)

/-- A 32-byte buffer whose magic is not "DKIF". -/
def badMagicInput : List Nat := List.replicate 32 255

/-- Witness for claim C5 at a concrete bad-magic buffer. -/
theorem header_malformed_witness :
    ivfHeader badMagicInput = .err (malformedSlice badMagicInput) ∧
    (malformedSlice badMagicInput = badMagicInput ↔
      badMagicInput.take 4 ≠ dkifBytes) :=
  header_malformed badMagicInput (by decide) (Or.inl (by decide))

/-- Witness for claim C6 at a concrete unknown 4-byte tag. -/
theorem codec_bijection_witness :
    parseCodec [1, 2, 3, 4] = .err [1, 2, 3, 4] :=
  codec_bijection.2.2.2.2.2.2 [1, 2, 3, 4] rfl (by decide) (by decide)
    (by decide)

/-- Witness for claim C7 at the fresh demuxer state. -/
theorem read_event_empty_eof_witness :
    readEvent ⟨none, []⟩ [] = .ok ⟨none, []⟩ 0 .eof ∧
    (∀ n, (RResult.ok ⟨none, []⟩ 0 .eof) ≠ .err (.moreDataNeeded n)) ∧
    (RResult.ok ⟨none, []⟩ 0 .eof) ≠ .err .invalidData :=
  read_event_empty_eof ⟨none, []⟩ rfl

/-- Witness for the amended claim C9 at the sample header: the parse
succeeds there and the reported advance is the fixed 32. -/
theorem header_consumed_fixed_32_witness : (32 : Nat) = 32 :=
  header_consumed_fixed_32 ⟨none, []⟩
    ⟨some { version := 0, width := 16, height := 16, rate := 30,
            scale := 1, codec := .VP8, nframe := 2 }, []⟩
    sampleHeader 32 (by decide)

/-- A concrete stream whose codec id is the unrecognised "h264". -/
def streamH264 : AvStream :=
  { duration := some 5,
    params := { codecId := some "h264",
                kind := some (.video 640 480) } }

/-- Concrete global info holding the "h264" stream. -/
def infoH264 : GlobalInfo :=
  { duration := none, timebase := none, streams := [streamH264] }

/-- A concrete muxer state carrying `infoH264`. -/
def muxCW : IvfMuxer :=
  { version := 7, width := 0, height := 0, frameRateNum := 30,
    frameRateDen := 1, scale := 9, codec := .AV1, duration := 0,
    info := some infoH264 }

/-- Witness for claim C10 at a concrete "h264" stream. -/
theorem configure_codec_fallback_witness :
    ∃ m2, configure muxCW = some m2 ∧ m2.codec = Codec.defaultCodec ∧
      Codec.defaultCodec = Codec.VP8 :=
  configure_codec_fallback muxCW infoH264 streamH264 [] rfl rfl
    (by decide) (by decide) (by decide)
    (fun _ htb => Option.noConfusion htb)

end Ivf
